import Mathlib

/-!
Shallow embedding of the main procedure of `src/src/tigr/postnuc_main.cc`
(the post-clustering stage of the MUMmer nucleotide alignment pipeline).

The embedded part is the stdin processing loop of `main` (lines 238-317):
coordinate remapping of match lines from the concatenated reference space
back to individual sequences, accumulation of matches into clusters and
clusters into synteny regions, the fatal and recoverable error paths, and
the flush/emit discipline on query-id changes and end of input.

The input stream is modelled one line at a time: the C++ code dispatches on
`std::cin.peek()` ('>' starts a header, '#' is a comment/separator line,
EOF ends the stream, anything else is a match line `sA sB len`), so a list
of `Line` values is a faithful abstraction of the character stream for
every behaviour the loop distinguishes.  `long int` values are modelled as
`Int` (no overflow is exercised by any claim), sequence lengths
(`m_seq.size() - 1` of a nonempty string) as `Nat`.
-/

namespace MummerPostnuc

/-- Embeds the `FastaRecord` class (postnuc_main.cc lines 140-167): the fasta
ID header tag and the sequence, of which only the length is relevant to the
main loop. -/
structure FastaRecord where
  id  : String
  len : Nat
deriving Repr, DecidableEq

/-- Embeds `Match_t` as pushed at line 309: `{ sA, sB, len }` with `sA`
already remapped to local coordinates. -/
structure MatchT where
  sA  : Int
  sB  : Int
  len : Int
deriving Repr, DecidableEq

/-- Embeds `Cluster currCl(DirB)` (line 263): the strand direction
(`true` = Reverse) and the accumulated matches. -/
structure Cluster where
  dirB    : Bool
  matches' : List MatchT  -- C++ field name: matches
deriving Repr, DecidableEq

/-- Embeds `Synteny<FastaRecord>`: the C++ object stores a pointer `AfP` into
the vector `Af` of reference records; the embedding stores the index into
`Af`, plus the accumulated clusters. -/
structure SyntenyRegion where
  afIdx    : Nat
  clusters : List Cluster
deriving Repr, DecidableEq

/-- Observable events of the loop: the boundary warning of lines 280-287
(match dropped, parsing continues) and a flush
`merger.processSyntenys_each(Syntenys, Bf, ...)` (lines 252-253 and
316-317), recorded with the query id and the flushed synteny set. -/
inductive Event where
  | boundaryWarning (seqIdx : Nat)
  | emit (qryId : String) (syntenys : List SyntenyRegion)
deriving Repr, DecidableEq

/-- The fatal terminations of the loop (each is an `exit` with nonzero
status / `parseAbort` in the C++):
`emptyRefFile` = line 234, `notStartWithGt` = lines 238-242,
`emptyHeaderId` = lines 247-248, `queryNotFound` = lines 257-258,
`outOfRange` = lines 273-277, `nonUniqueHeaders` = lines 294-299,
`crossSequence` = lines 302-306.  `undefinedIterator` marks the one
undefined behaviour of the C++: dereferencing `CurrSp` at line 311 while it
was never assigned (or was invalidated by a flush that cleared `Syntenys`);
the embedding makes that case an explicit outcome instead of leaving it
unspecified. -/
inductive Fatal where
  | emptyRefFile
  | notStartWithGt
  | emptyHeaderId
  | queryNotFound
  | outOfRange
  | nonUniqueHeaders
  | crossSequence
  | undefinedIterator
deriving Repr, DecidableEq

/-- One logical line of the stdin stream, as the peek-dispatch of the loop
distinguishes them: a `>` header carrying the query id and whether the rest
of the line contains " Reverse" (line 250), a `#` separator line, or a
match line `sA sB len` (line 265). -/
inductive Line where
  | header (idB : String) (rev : Bool)
  | comment
  | mline (sA sB len : Int)
deriving Repr, DecidableEq

/-- Total lookup into the reference array, standing for `Af[Seqi]`; indices
stored in the state are always in range, so the default is never consulted
by a reachable access. -/
def getRec (Af : List FastaRecord) (i : Nat) : FastaRecord :=
  Af.getD i ⟨"", 0⟩

/-- Embeds the remap loop of lines 271-272 together with the exhaustion test
of line 273:
`for (Seqi = 0; Seqi < Af.size() && sA > Af[Seqi].len(); ++Seqi) sA -= Af[Seqi].len() + 1;`
returning `some (Seqi, sA)` for the first sequence with `sA ≤ len`, and
`none` when every sequence is exhausted (`Seqi >= Af.size()`). -/
def remap : List FastaRecord → Int → Option (Nat × Int)
  | [], _ => none
  | r :: rest, sA =>
    if sA > (r.len : Int) then
      (remap rest (sA - ((r.len : Int) + 1))).map (fun p => (p.1 + 1, p.2))
    else
      some (0, sA)

/-- Embeds the reverse-scan region lookup of line 290:
`std::find_if(Syntenys.rbegin(), Syntenys.rend(), [=](s){ return s.AfP->Id() == *IdA; })`,
returning the front-based index of the LAST region whose reference id
equals `idA` (most recently created first), or `none`. -/
def findRegionRev (Af : List FastaRecord) (idA : String) :
    List SyntenyRegion → Option Nat
  | [] => none
  | r :: rest =>
    match findRegionRev Af idA rest with
    | some j => some (j + 1)
    | none => if (getRec Af r.afIdx).id = idA then some 0 else none

/-- Total lookup into the synteny list, standing for `*CurrSp`. -/
def getRegion (syns : List SyntenyRegion) (j : Nat) : SyntenyRegion :=
  syns.getD j ⟨0, []⟩

/-- Appends a closed cluster to region `j`:
`CurrSp->clusters.push_back(std::move(currCl))` (line 311). -/
def pushCluster (syns : List SyntenyRegion) (j : Nat) (cl : Cluster) :
    List SyntenyRegion :=
  syns.set j ⟨(getRegion syns j).afIdx, (getRegion syns j).clusters ++ [cl]⟩

/-- The loop state that survives across cluster blocks: the synteny list,
the current-region iterator `CurrSp` (`none` models the C++ iterator being
not-yet-assigned, or invalidated because a flush cleared `Syntenys`), and
the recorded events. -/
structure St where
  Syntenys : List SyntenyRegion
  CurrSp   : Option Nat
  events   : List Event
deriving Repr, DecidableEq

/-- The per-block state of the innermost loop (lines 262-263): `IdA`, the
id of the cluster's first surviving match (`none` = the C++ null pointer),
and the open cluster `currCl`. -/
structure Block where
  IdA    : Option String
  currCl : Cluster
deriving Repr, DecidableEq

/-- Embeds the body of the innermost match-line loop (lines 265-309) for
one already-lexed match line `sA sB len`: remap (fatal `outOfRange` when
the scan exhausts `Af`), the recoverable boundary drop
(`sA + len - 1 > Af[Seqi].len() || sA <= 0` at line 280: warn and
`continue`), the `IdA`/`CurrSp` resolution of lines 288-300 (creating a
region or aborting on a duplicate id of different length), the
cross-sequence fatal check of lines 302-307, and the `len > 1` guard of
line 308 before the match is appended to the open cluster. -/
def processMatch (Af : List FastaRecord) (sA sB len : Int) (b : Block)
    (st : St) : Except Fatal (Block × St) :=
  match remap Af sA with
  | none => .error .outOfRange
  | some (Seqi, sA2) =>
    if sA2 + len - 1 > ((getRec Af Seqi).len : Int) ∨ sA2 ≤ 0 then
      .ok (b, { st with events := st.events ++ [.boundaryWarning Seqi] })
    else
      match
        ((match b.IdA with
         | none =>
           match findRegionRev Af (getRec Af Seqi).id st.Syntenys with
           | none =>
             .ok ((getRec Af Seqi).id,
                  { st with Syntenys := st.Syntenys ++ [⟨Seqi, []⟩],
                            CurrSp := some st.Syntenys.length })
           | some j =>
             if (getRec Af (getRegion st.Syntenys j).afIdx).len ≠
                (getRec Af Seqi).len then
               .error .nonUniqueHeaders
             else
               .ok ((getRec Af Seqi).id, { st with CurrSp := some j })
         | some a => .ok (a, st)) : Except Fatal (String × St)) with
      | .error e => .error e
      | .ok (idA, st1) =>
        if idA ≠ (getRec Af Seqi).id then
          .error .crossSequence
        else if len > 1 then
          .ok (⟨some idA, ⟨b.currCl.dirB, b.currCl.matches' ++ [⟨sA2, sB, len⟩]⟩⟩,
               st1)
        else
          .ok (⟨some idA, b.currCl⟩, st1)

/-- Closes the open cluster into the current region (line 311).  When
`CurrSp` was never assigned, or indexes outside the current synteny list,
the C++ dereferences an invalid iterator; the embedding reports that as the
explicit `undefinedIterator` outcome. -/
def closeCluster (cl : Cluster) (st : St) : Except Fatal St :=
  match st.CurrSp with
  | none => .error .undefinedIterator
  | some j =>
    if j < st.Syntenys.length then
      .ok { st with Syntenys := pushCluster st.Syntenys j cl }
    else
      .error .undefinedIterator

/-- The query cursor: the loaded query id `Bf.Id()` and the ids of the
records still unread from the query file. -/
structure QSt where
  BfId  : String
  qrest : List String
deriving Repr, DecidableEq

/-- Embeds the forward-only query advance of lines 256-258:
`while (CurrIdB != Bf.Id() && Bf.read_sequence(QryFile));` then abort when
the id was still not found.  Returns the new `(Bf.Id(), remaining ids)` on
success. -/
def advanceQry (target bfId : String) :
    List String → Option (String × List String)
  | [] => if target = bfId then some (bfId, []) else none
  | q :: rest =>
    if target = bfId then some (bfId, q :: rest) else advanceQry target q rest

/-- Embeds the header handling of lines 245-258: abort on an empty id
(line 247), flush the synteny set when the query id changed and the set is
nonempty (lines 252-253; per the design the flushed set is discarded, so
`Syntenys` is cleared and `CurrSp` invalidated), then advance the query
cursor (fatal when the id is not found). -/
def stepHeader (idB : String) (rev : Bool) (q : QSt) (st : St) :
    Except Fatal (QSt × Bool × St) :=
  if idB = "" then .error .emptyHeaderId
  else
    let st1 :=
      if idB ≠ q.BfId ∧ st.Syntenys ≠ [] then
        { Syntenys := ([] : List SyntenyRegion), CurrSp := none,
          events := st.events ++ [.emit q.BfId st.Syntenys] }
      else st
    match advanceQry idB q.BfId q.qrest with
    | none => .error .queryNotFound
    | some (bf2, qs2) => .ok (⟨bf2, qs2⟩, rev, st1)

/-- The whole machine state of the loop nest: query cursor, current strand
`DirB`, the open cluster block of the innermost loop (`none` between
blocks), and the surviving state. -/
structure MSt where
  q     : QSt
  dirB  : Bool
  block : Option Block
  st    : St
deriving Repr, DecidableEq

/-- One step of the loop nest on the next input line.  A header closes any
open cluster (the innermost and middle loops both exit on `'>'`, pushing
`currCl`, before the outer loop reads the header) and then runs the header
handling; a `'#'` line closes the open cluster — or, when none is open, the
fresh empty cluster the middle-loop iteration just created — and is
consumed (lines 312-313); a match line opens a fresh cluster if none is
open (line 263) and runs the match-line body on it. -/
def stepLine (Af : List FastaRecord) (m : MSt) : Line → Except Fatal MSt
  | .header idB rev =>
    match (match m.block with
           | some b => closeCluster b.currCl m.st
           | none => .ok m.st) with
    | .error e => .error e
    | .ok st1 =>
      match stepHeader idB rev m.q st1 with
      | .error e => .error e
      | .ok (q2, rev2, st2) => .ok ⟨q2, rev2, none, st2⟩
  | .comment =>
    match closeCluster (m.block.getD ⟨none, ⟨m.dirB, []⟩⟩).currCl m.st with
    | .error e => .error e
    | .ok st1 => .ok ⟨m.q, m.dirB, none, st1⟩
  | .mline sA sB len =>
    match processMatch Af sA sB len (m.block.getD ⟨none, ⟨m.dirB, []⟩⟩) m.st with
    | .error e => .error e
    | .ok (b2, st1) => .ok ⟨m.q, m.dirB, some b2, st1⟩

/-- End of input: the loops exit on EOF, closing any open cluster, and the
final nonempty synteny set is flushed (lines 316-317). -/
def stepEOF (m : MSt) : Except Fatal (List Event) :=
  match (match m.block with
         | some b => closeCluster b.currCl m.st
         | none => .ok m.st) with
  | .error e => .error e
  | .ok st1 =>
    if st1.Syntenys ≠ [] then
      .ok (st1.events ++ [.emit m.q.BfId st1.Syntenys])
    else
      .ok st1.events

/-- Runs the loop nest over the whole line stream. -/
def runLines (Af : List FastaRecord) (m : MSt) :
    List Line → Except Fatal (List Event)
  | [] => stepEOF m
  | l :: rest =>
    match stepLine Af m l with
    | .error e => .error e
    | .ok m2 => runLines Af m2 rest

/-- The initial-peek admissibility check of lines 238-242: the stream must
start with `'>'` or be empty. -/
def startsOk : List Line → Bool
  | [] => true
  | .header _ _ :: _ => true
  | _ => false

/-- The initial machine state: `Bf` is a default-constructed `FastaRecord`
whose id is the empty string, no strand seen, no open block, empty synteny
set. -/
def initMSt (qryIds : List String) : MSt :=
  ⟨⟨"", qryIds⟩, false, none, ⟨[], none, []⟩⟩

/-- The stdin-processing part of `main` (lines 227-317): abort when the
reference file produced no sequences (line 234), abort when the stream
starts with neither `'>'` nor EOF (lines 238-242), otherwise run the loop
nest and return the recorded events (or the fatal outcome, which in the
C++ is `exit` with nonzero status). -/
def postnuc (Af : List FastaRecord) (qryIds : List String)
    (lines : List Line) : Except Fatal (List Event) :=
  match Af with
  | [] => .error .emptyRefFile
  | _ :: _ =>
    if startsOk lines then runLines Af (initMSt qryIds) lines
    else .error .notStartWithGt

/-- The two header lines written to the `.delta` file before any input is
read (lines 212-214, with `DO_DELTA` at its default `true`):
`DeltaFile << RefFileName << ' ' << QryFileName << "\nNUCMER\n";`. -/
def deltaHeaderLines (refName qryName : String) : List String :=
  [refName ++ " " ++ qryName, "NUCMER"]

/-- Modelled from the spec: the Output Formatter (`printDeltaAlignments` /
`printSyntenys` of postnuc.hh, not under src/) writes one block of lines
per flushed synteny set; the per-event rendering is kept abstract as a
parameter, since only "no events produce no lines" is needed.  Spec §6:
output after the two header lines consists of per-pair blocks, one per
emitted set. -/
def renderEvents (render1 : Event → List String) (events : List Event) :
    List String :=
  events.flatMap render1

/-- The full `.delta` output stream of a run: the unconditional header
lines followed by the rendering of the flush events. -/
def mainOutput (render1 : Event → List String) (refName qryName : String)
    (events : List Event) : List String :=
  deltaHeaderLines refName qryName ++ renderEvents render1 events

/-- The global concatenated-space coordinate of local coordinate
`localStart` in sequence `seqIndex`: each earlier sequence contributes its
length plus one sentinel character (the `x` of the comment at line 272). -/
def globalStart (Af : List FastaRecord) (seqIndex : Nat) (localStart : Int) :
    Int :=
  localStart + (((Af.take seqIndex).map (fun r => (r.len : Int) + 1)).sum)

/-- The total extent of the concatenated space: the sum of all sequence
lengths plus one sentinel per sequence. -/
def totalSpan (Af : List FastaRecord) : Int :=
  ((Af.map (fun r => (r.len : Int) + 1)).sum)

/-! ## Helper lemmas -/

theorem sentinelSum_nonneg (l : List FastaRecord) :
    0 ≤ ((l.map (fun r => (r.len : Int) + 1)).sum) := by
  apply List.sum_nonneg
  intro x hx
  obtain ⟨r, -, rfl⟩ := List.mem_map.mp hx
  positivity

theorem totalSpan_nonneg (Af : List FastaRecord) : 0 ≤ totalSpan Af :=
  sentinelSum_nonneg Af

theorem remap_eq_none_of_gt (Af : List FastaRecord) (sA : Int)
    (h : sA > totalSpan Af) : remap Af sA = none := by
  induction Af generalizing sA with
  | nil => rfl
  | cons r rest ih =>
    have hrest : 0 ≤ totalSpan rest := totalSpan_nonneg rest
    have hspan : totalSpan (r :: rest) = ((r.len : Int) + 1) + totalSpan rest := by
      simp [totalSpan]
    rw [hspan] at h
    have hgt : sA > (r.len : Int) := by linarith
    unfold remap
    rw [if_pos hgt, ih (sA - ((r.len : Int) + 1)) (by linarith)]
    rfl

theorem globalStart_cons_succ (r : FastaRecord) (rest : List FastaRecord)
    (j : Nat) (localStart : Int) :
    globalStart (r :: rest) (j + 1) localStart =
      globalStart rest j localStart + ((r.len : Int) + 1) := by
  simp only [globalStart, List.take_succ_cons, List.map_cons, List.sum_cons]
  ring

theorem globalStart_pos (Af : List FastaRecord) (seqIndex : Nat)
    (localStart : Int) (h1 : 1 ≤ localStart) :
    1 ≤ globalStart Af seqIndex localStart := by
  have := sentinelSum_nonneg (Af.take seqIndex)
  unfold globalStart
  linarith

theorem remap_globalStart (Af : List FastaRecord) :
    ∀ (seqIndex : Nat) (localStart : Int),
      seqIndex < Af.length → 1 ≤ localStart →
      localStart ≤ ((getRec Af seqIndex).len : Int) →
      remap Af (globalStart Af seqIndex localStart) =
        some (seqIndex, localStart) := by
  induction Af with
  | nil =>
    intro i ls hi
    exact absurd hi (by simp)
  | cons r rest ih =>
    intro i ls hi h1 hL
    cases i with
    | zero =>
      have hg : globalStart (r :: rest) 0 ls = ls := by
        simp [globalStart]
      have hL0 : ls ≤ (r.len : Int) := by
        simpa [getRec] using hL
      rw [hg]
      unfold remap
      rw [if_neg (by linarith)]
    | succ j =>
      have hj : j < rest.length := by simpa using hi
      have hL' : ls ≤ ((getRec rest j).len : Int) := by
        simpa [getRec] using hL
      have hgr : 1 ≤ globalStart rest j ls := globalStart_pos rest j ls h1
      rw [globalStart_cons_succ]
      unfold remap
      rw [if_pos (by linarith)]
      have harg : globalStart rest j ls + ((r.len : Int) + 1) -
          ((r.len : Int) + 1) = globalStart rest j ls := by ring
      rw [harg, ih j ls hj h1 hL']
      rfl

/-! ## Claim theorems -/

/-- C3: for every sequence store and every in-range triple
`(seqIndex, localStart, len)` with `1 ≤ localStart` and
`localStart + len - 1 ≤` the length of sequence `seqIndex`, remapping the
global coordinate obtained by concatenating the sequences with one sentinel
after each (the subtraction scan of lines 271-272) recovers exactly
`(seqIndex, localStart)`. -/
theorem remap_roundTrip (Af : List FastaRecord) (seqIndex : Nat)
    (localStart len : Int)
    (hIdx : seqIndex < Af.length)
    (h1 : 1 ≤ localStart)
    (hlen : 1 ≤ len)
    (hspan : localStart + len - 1 ≤ ((getRec Af seqIndex).len : Int)) :
    remap Af (globalStart Af seqIndex localStart) =
      some (seqIndex, localStart) :=
  remap_globalStart Af seqIndex localStart hIdx h1 (by linarith)

theorem remap_roundTrip_witness :
    1 < ([⟨"a", 5⟩, ⟨"b", 7⟩] : List FastaRecord).length ∧
    (1 : Int) ≤ 3 ∧ (1 : Int) ≤ 4 ∧
    (3 : Int) + 4 - 1 ≤ ((getRec [⟨"a", 5⟩, ⟨"b", 7⟩] 1).len : Int) ∧
    remap [⟨"a", 5⟩, ⟨"b", 7⟩] (globalStart [⟨"a", 5⟩, ⟨"b", 7⟩] 1 3) =
      some (1, 3) :=
  ⟨by decide, by decide, by decide, by decide,
   remap_roundTrip [⟨"a", 5⟩, ⟨"b", 7⟩] 1 3 4 (by decide) (by decide)
     (by decide) (by decide)⟩

/-- C6: a match line whose global reference coordinate exceeds the sum of
all sequence lengths plus sentinels exhausts every sequence during the
subtraction scan, and the process aborts fatally (lines 273-277,
`exit (EXIT_FAILURE)`). -/
theorem out_of_range_fatal (Af : List FastaRecord) (sA sB len : Int)
    (b : Block) (st : St) (h : sA > totalSpan Af) :
    processMatch Af sA sB len b st = .error .outOfRange := by
  unfold processMatch
  rw [remap_eq_none_of_gt Af sA h]

theorem out_of_range_fatal_witness :
    (100 : Int) > totalSpan [⟨"r", 2⟩] ∧
    processMatch [⟨"r", 2⟩] 100 3 5 ⟨none, ⟨false, []⟩⟩ ⟨[], none, []⟩ =
      .error .outOfRange :=
  ⟨by decide,
   out_of_range_fatal [⟨"r", 2⟩] 100 3 5 ⟨none, ⟨false, []⟩⟩ ⟨[], none, []⟩
     (by decide)⟩

/-- C1: a match line whose remapped reference span crosses a sequence
boundary (`sA + len - 1 > Af[Seqi].len()`) is dropped with a warning and
nothing else changes: the open cluster, the synteny set and the
current-region iterator are kept, and the result is not a fatal outcome
(lines 280-287, `continue`). -/
theorem boundary_cross_recoverable (Af : List FastaRecord) (sA sB len : Int)
    (b : Block) (st : St) (Seqi : Nat) (sA2 : Int)
    (hre : remap Af sA = some (Seqi, sA2))
    (hcross : sA2 + len - 1 > ((getRec Af Seqi).len : Int)) :
    processMatch Af sA sB len b st =
      .ok (b, { st with events := st.events ++ [.boundaryWarning Seqi] }) := by
  unfold processMatch
  rw [hre]
  exact if_pos (Or.inl hcross)

theorem boundary_cross_recoverable_witness :
    remap [⟨"r", 10⟩] 7 = some (0, 7) ∧
    (7 : Int) + 6 - 1 > ((getRec [⟨"r", 10⟩] 0).len : Int) ∧
    processMatch [⟨"r", 10⟩] 7 5 6
        ⟨some "r", ⟨false, [⟨2, 3, 5⟩]⟩⟩ ⟨[⟨0, []⟩], some 0, []⟩ =
      .ok (⟨some "r", ⟨false, [⟨2, 3, 5⟩]⟩⟩,
           ⟨[⟨0, []⟩], some 0, [.boundaryWarning 0]⟩) :=
  ⟨by decide, by decide,
   boundary_cross_recoverable [⟨"r", 10⟩] 7 5 6
     ⟨some "r", ⟨false, [⟨2, 3, 5⟩]⟩⟩ ⟨[⟨0, []⟩], some 0, []⟩ 0 7
     (by decide) (by decide)⟩

/-- C9: a match line whose remapped reference start is `≤ 0` after the
subtraction scan takes exactly the same recoverable path as a
boundary-crossing match: the `sA <= 0` disjunct of line 280 emits the same
boundary warning, drops only this line, and parsing continues. -/
theorem nonpositive_start_recoverable (Af : List FastaRecord)
    (sA sB len : Int) (b : Block) (st : St) (Seqi : Nat) (sA2 : Int)
    (hre : remap Af sA = some (Seqi, sA2))
    (hle : sA2 ≤ 0) :
    processMatch Af sA sB len b st =
      .ok (b, { st with events := st.events ++ [.boundaryWarning Seqi] }) := by
  unfold processMatch
  rw [hre]
  exact if_pos (Or.inr hle)

/-- C2: once a cluster's first surviving match fixed `IdA`, a later match
line in the same block that survives remapping and the boundary check but
resolves to a reference sequence with a different id aborts the process
fatally (lines 302-307, `exit(EXIT_FAILURE)`), in contrast to the
recoverable single-match boundary case. -/
theorem cross_sequence_fatal (Af : List FastaRecord) (sA sB len : Int)
    (b : Block) (st : St) (Seqi : Nat) (sA2 : Int) (a : String)
    (hIdA : b.IdA = some a)
    (hre : remap Af sA = some (Seqi, sA2))
    (hin : ¬(sA2 + len - 1 > ((getRec Af Seqi).len : Int) ∨ sA2 ≤ 0))
    (hne : a ≠ (getRec Af Seqi).id) :
    processMatch Af sA sB len b st = .error .crossSequence := by
  unfold processMatch
  simp only [hre]
  rw [if_neg hin]
  simp only [hIdA]
  rw [if_pos hne]

theorem cross_sequence_fatal_witness :
    (⟨some "a", ⟨false, [⟨2, 3, 5⟩]⟩⟩ : Block).IdA = some "a" ∧
    remap [⟨"a", 5⟩, ⟨"b", 7⟩] 9 = some (1, 3) ∧
    ¬((3 : Int) + 4 - 1 > ((getRec [⟨"a", 5⟩, ⟨"b", 7⟩] 1).len : Int) ∨
      (3 : Int) ≤ 0) ∧
    "a" ≠ (getRec [⟨"a", 5⟩, ⟨"b", 7⟩] 1).id ∧
    processMatch [⟨"a", 5⟩, ⟨"b", 7⟩] 9 6 4
        ⟨some "a", ⟨false, [⟨2, 3, 5⟩]⟩⟩ ⟨[⟨0, []⟩], some 0, []⟩ =
      .error .crossSequence :=
  ⟨by decide, by decide, by decide, by decide,
   cross_sequence_fatal [⟨"a", 5⟩, ⟨"b", 7⟩] 9 6 4
     ⟨some "a", ⟨false, [⟨2, 3, 5⟩]⟩⟩ ⟨[⟨0, []⟩], some 0, []⟩ 1 3 "a"
     (by decide) (by decide) (by decide) (by decide)⟩

/-- C7: when a cluster's first surviving match looks up its reference id in
the synteny list (most recently created region first) and finds a region
whose registered reference length differs from the newly resolved
sequence's length, the process aborts fatally (lines 294-299, non-unique
header ids). -/
theorem dup_id_len_mismatch_fatal (Af : List FastaRecord) (sA sB len : Int)
    (b : Block) (st : St) (Seqi : Nat) (sA2 : Int) (j : Nat)
    (hIdA : b.IdA = none)
    (hre : remap Af sA = some (Seqi, sA2))
    (hin : ¬(sA2 + len - 1 > ((getRec Af Seqi).len : Int) ∨ sA2 ≤ 0))
    (hfind : findRegionRev Af (getRec Af Seqi).id st.Syntenys = some j)
    (hmis : (getRec Af (getRegion st.Syntenys j).afIdx).len ≠
            (getRec Af Seqi).len) :
    processMatch Af sA sB len b st = .error .nonUniqueHeaders := by
  unfold processMatch
  simp only [hre]
  rw [if_neg hin]
  simp only [hIdA, hfind]
  rw [if_pos hmis]

theorem dup_id_len_mismatch_fatal_witness :
    (⟨none, ⟨false, []⟩⟩ : Block).IdA = none ∧
    remap [⟨"r", 10⟩, ⟨"r", 5⟩] 2 = some (0, 2) ∧
    ¬((2 : Int) + 5 - 1 > ((getRec [⟨"r", 10⟩, ⟨"r", 5⟩] 0).len : Int) ∨
      (2 : Int) ≤ 0) ∧
    findRegionRev [⟨"r", 10⟩, ⟨"r", 5⟩] (getRec [⟨"r", 10⟩, ⟨"r", 5⟩] 0).id
        [⟨1, []⟩] = some 0 ∧
    (getRec [⟨"r", 10⟩, ⟨"r", 5⟩] (getRegion [⟨1, []⟩] 0).afIdx).len ≠
      (getRec [⟨"r", 10⟩, ⟨"r", 5⟩] 0).len ∧
    processMatch [⟨"r", 10⟩, ⟨"r", 5⟩] 2 3 5 ⟨none, ⟨false, []⟩⟩
        ⟨[⟨1, []⟩], none, []⟩ = .error .nonUniqueHeaders :=
  ⟨by decide, by decide, by decide, by decide, by decide,
   dup_id_len_mismatch_fatal [⟨"r", 10⟩, ⟨"r", 5⟩] 2 3 5 ⟨none, ⟨false, []⟩⟩
     ⟨[⟨1, []⟩], none, []⟩ 0 2 0
     (by decide) (by decide) (by decide) (by decide) (by decide)⟩

/-- C8: a match line that survives remapping and the boundary check but has
`len ≤ 1` is never appended to the open cluster: whenever the match-line
body completes without aborting, the open cluster is unchanged (the
`len > 1` guard of line 308). -/
theorem short_match_discarded (Af : List FastaRecord) (sA sB len : Int)
    (b : Block) (st : St) (Seqi : Nat) (sA2 : Int) (b2 : Block) (st2 : St)
    (hlen : len ≤ 1)
    (hre : remap Af sA = some (Seqi, sA2))
    (hin : ¬(sA2 + len - 1 > ((getRec Af Seqi).len : Int) ∨ sA2 ≤ 0))
    (hok : processMatch Af sA sB len b st = .ok (b2, st2)) :
    b2.currCl = b.currCl := by
  have hnl : ¬ len > 1 := by omega
  unfold processMatch at hok
  simp only [hre] at hok
  rw [if_neg hin] at hok
  split at hok
  · exact absurd hok (by simp)
  · rename_i idA st1 heq
    split at hok
    · exact absurd hok (by simp)
    · injection hok with h1
      exact (congrArg (fun p => (p.1 : Block).currCl) h1).symm

theorem short_match_discarded_witness :
    (1 : Int) ≤ 1 ∧
    remap [⟨"r", 10⟩] 2 = some (0, 2) ∧
    ¬((2 : Int) + 1 - 1 > ((getRec [⟨"r", 10⟩] 0).len : Int) ∨
      (2 : Int) ≤ 0) ∧
    processMatch [⟨"r", 10⟩] 2 3 1 ⟨none, ⟨false, []⟩⟩ ⟨[], none, []⟩ =
      .ok (⟨some "r", ⟨false, []⟩⟩, ⟨[⟨0, []⟩], some 0, []⟩) ∧
    (⟨some "r", ⟨false, []⟩⟩ : Block).currCl =
      (⟨none, ⟨false, []⟩⟩ : Block).currCl :=
  ⟨by decide, by decide, by decide, rfl,
   short_match_discarded [⟨"r", 10⟩] 2 3 1 ⟨none, ⟨false, []⟩⟩ ⟨[], none, []⟩
     0 2 ⟨some "r", ⟨false, []⟩⟩ ⟨[⟨0, []⟩], some 0, []⟩
     (by decide) (by decide) (by decide) rfl⟩

theorem nonpositive_start_recoverable_witness :
    remap [⟨"r", 10⟩] 0 = some (0, 0) ∧
    (0 : Int) ≤ 0 ∧
    processMatch [⟨"r", 10⟩] 0 5 4
        ⟨some "r", ⟨false, [⟨2, 3, 5⟩]⟩⟩ ⟨[⟨0, []⟩], some 0, []⟩ =
      .ok (⟨some "r", ⟨false, [⟨2, 3, 5⟩]⟩⟩,
           ⟨[⟨0, []⟩], some 0, [.boundaryWarning 0]⟩) :=
  ⟨by decide, by decide,
   nonpositive_start_recoverable [⟨"r", 10⟩] 0 5 4
     ⟨some "r", ⟨false, [⟨2, 3, 5⟩]⟩⟩ ⟨[⟨0, []⟩], some 0, []⟩ 0 0
     (by decide) (by decide)⟩

theorem advanceQry_self (bfId : String) (qs : List String) :
    advanceQry bfId bfId qs = some (bfId, qs) := by
  cases qs <;> simp [advanceQry]

/-- C4: the flush/emit discipline of the header handler and of end of
input.  A header repeating the currently loaded query id emits nothing and
keeps the accumulated synteny set, so consecutive same-id headers merge
into one set; the first header with a different id while the set is
nonempty appends exactly one emission of the accumulated set and clears it
(so the set is emitted exactly once); a differing header over an empty set
emits nothing; end of input emits the nonempty accumulated set exactly
once, and nothing when it is empty.  The final conjunct runs a whole
concrete stream with two consecutive same-id headers, producing a single
emission whose one region holds the clusters of both header groups. -/
theorem grouping_emission (idB : String) (rev : Bool) (q : QSt) (st : St)
    (m : MSt) (bf2 : String) (qs2 : List String) :
    (idB = q.BfId → idB ≠ "" → stepHeader idB rev q st = .ok (q, rev, st)) ∧
    (idB ≠ q.BfId → idB ≠ "" → st.Syntenys ≠ [] →
      advanceQry idB q.BfId q.qrest = some (bf2, qs2) →
      stepHeader idB rev q st =
        .ok (⟨bf2, qs2⟩, rev,
             ⟨[], none, st.events ++ [.emit q.BfId st.Syntenys]⟩)) ∧
    (idB ≠ q.BfId → idB ≠ "" → st.Syntenys = [] →
      advanceQry idB q.BfId q.qrest = some (bf2, qs2) →
      stepHeader idB rev q st = .ok (⟨bf2, qs2⟩, rev, st)) ∧
    (m.block = none → m.st.Syntenys ≠ [] →
      stepEOF m = .ok (m.st.events ++ [.emit m.q.BfId m.st.Syntenys])) ∧
    (m.block = none → m.st.Syntenys = [] → stepEOF m = .ok m.st.events) ∧
    postnuc [⟨"r", 10⟩] ["q"]
        [.header "q" false, .mline 2 3 5, .header "q" false, .mline 8 4 3] =
      .ok [.emit "q" [⟨0, [⟨false, [⟨2, 3, 5⟩]⟩, ⟨false, [⟨8, 4, 3⟩]⟩]⟩]] := by
  refine ⟨?_, ?_, ?_, ?_, ?_, rfl⟩
  · intro hsame hne
    subst hsame
    unfold stepHeader
    rw [if_neg hne, advanceQry_self]
    simp
  · intro hdiff hne hsyn hadv
    unfold stepHeader
    rw [if_neg hne, hadv]
    simp only [if_pos (And.intro hdiff hsyn)]
  · intro hdiff hne hsyn hadv
    unfold stepHeader
    rw [if_neg hne, hadv]
    have : ¬(idB ≠ q.BfId ∧ st.Syntenys ≠ []) := by
      intro hc
      exact hc.2 hsyn
    simp only [if_neg this]
  · intro hblock hsyn
    unfold stepEOF
    rw [hblock]
    simp only [if_pos hsyn]
  · intro hblock hsyn
    unfold stepEOF
    rw [hblock]
    simp [hsyn]

theorem grouping_emission_witness :
    stepHeader "p" false ⟨"q", ["p"]⟩ ⟨[⟨0, []⟩], some 0, []⟩ =
      .ok (⟨"p", []⟩, false, ⟨[], none, [.emit "q" [⟨0, []⟩]]⟩) :=
  (grouping_emission "p" false ⟨"q", ["p"]⟩ ⟨[⟨0, []⟩], some 0, []⟩
      (initMSt []) "p" []).2.1 (by decide) (by decide) (by decide) rfl

/-- C5, counterexample to the claim as stated: a stream in which one `'#'`
comment line interrupts a run of match lines.  The match line before the
comment and the match line after it end up in two distinct clusters of the
same synteny region — the comment line does end the current cluster — so
they do not accumulate into one single logical Cluster. -/
theorem comment_splits_cluster :
    postnuc [⟨"r", 10⟩] ["q"]
        [.header "q" false, .mline 2 3 5, .comment, .mline 8 4 2] =
      .ok [.emit "q" [⟨0, [⟨false, [⟨2, 3, 5⟩]⟩, ⟨false, [⟨8, 4, 2⟩]⟩]⟩]] :=
  rfl

/-- C5 (amended): a `'#'` comment line ends the current cluster — the open
cluster is closed into the current synteny region and the comment line is
consumed — and parsing continues without aborting; match lines after the
comment start a new cluster in the same region (lines 261-263 and
311-313). -/
theorem comment_ends_cluster (Af : List FastaRecord) (m : MSt) (b : Block)
    (j : Nat)
    (hb : m.block = some b) (hj : m.st.CurrSp = some j)
    (hlt : j < m.st.Syntenys.length) :
    stepLine Af m .comment =
      .ok ⟨m.q, m.dirB, none,
           { m.st with Syntenys := pushCluster m.st.Syntenys j b.currCl }⟩ := by
  unfold stepLine
  rw [hb]
  unfold closeCluster
  rw [hj]
  simp only [Option.getD_some, if_pos hlt]
  rw [← hj]

theorem comment_ends_cluster_witness :
    (⟨⟨"q", []⟩, false, some ⟨some "r", ⟨false, [⟨2, 3, 5⟩]⟩⟩,
       ⟨[⟨0, []⟩], some 0, []⟩⟩ : MSt).block =
        some ⟨some "r", ⟨false, [⟨2, 3, 5⟩]⟩⟩ ∧
    stepLine [⟨"r", 10⟩]
        ⟨⟨"q", []⟩, false, some ⟨some "r", ⟨false, [⟨2, 3, 5⟩]⟩⟩,
         ⟨[⟨0, []⟩], some 0, []⟩⟩ .comment =
      .ok ⟨⟨"q", []⟩, false, none,
           ⟨[⟨0, [⟨false, [⟨2, 3, 5⟩]⟩]⟩], some 0, []⟩⟩ :=
  ⟨by decide,
   comment_ends_cluster [⟨"r", 10⟩]
     ⟨⟨"q", []⟩, false, some ⟨some "r", ⟨false, [⟨2, 3, 5⟩]⟩⟩,
      ⟨[⟨0, []⟩], some 0, []⟩⟩
     ⟨some "r", ⟨false, [⟨2, 3, 5⟩]⟩⟩ 0 rfl rfl (by decide)⟩

/-- C10: an empty match stream is not the fatal input-does-not-start-with-
`'>'` error: provided the reference file yielded at least one sequence, the
run succeeds (exit status 0) with no emission events, so the `.delta`
output holds exactly the two unconditional header lines (the
filenames line and the `NUCMER` line of lines 212-214). -/
theorem empty_stream_ok (Af : List FastaRecord) (qryIds : List String)
    (render1 : Event → List String) (refName qryName : String)
    (hA : Af ≠ []) :
    postnuc Af qryIds [] = .ok [] ∧
    mainOutput render1 refName qryName [] =
      [refName ++ " " ++ qryName, "NUCMER"] := by
  refine ⟨?_, rfl⟩
  match Af, hA with
  | r :: t, _ => rfl

theorem empty_stream_ok_witness :
    ([⟨"r", 10⟩] : List FastaRecord) ≠ [] ∧
    postnuc [⟨"r", 10⟩] ["q"] [] = .ok [] ∧
    mainOutput (fun _ => []) "ref.fa" "qry.fa" [] =
      ["ref.fa" ++ " " ++ "qry.fa", "NUCMER"] :=
  ⟨by decide,
   (empty_stream_ok [⟨"r", 10⟩] ["q"] (fun _ => []) "ref.fa" "qry.fa"
      (by decide)).1,
   (empty_stream_ok [⟨"r", 10⟩] ["q"] (fun _ => []) "ref.fa" "qry.fa"
      (by decide)).2⟩

end MummerPostnuc
